import Mathlib

/-!
Verification of the token lifecycle and session-context pipeline of the
copilot-terminal assistant.  The definitions below are a shallow embedding of
`storage.ts`, `copilot.ts`, `auth.ts` and `session.ts`: file-system state is
passed explicitly, `Date.now()` readings are explicit integer (millisecond)
arguments, HTTP responses are explicit arguments, and thrown JS errors become
`Except` values.  JavaScript truthiness of strings/numbers is modelled by
explicit emptiness/zero tests.
-/

/-- A JSON scalar as it may appear in the `copilotTokenExpiresAt` field of the
token blob: the reading code in `storage.ts` accepts both an ISO-8601 string
and an epoch-seconds number. -/
inductive JVal where
  | str (s : String)
  | num (n : Int)
deriving DecidableEq

/-- JavaScript truthiness of a JSON scalar: the empty string and the number 0
are falsy. -/
def jvTruthy : JVal → Bool
  | .str s => s ≠ ""
  | .num n => n ≠ 0

/-- JavaScript truthiness of an optional string (`undefined` and `""` are
falsy). -/
def optStrTruthy : Option String → Bool
  | none => false
  | some s => s ≠ ""

/-- The parsed shape of `token.json` (`TokenStorage` in `storage.ts`). -/
structure TokenStorage where
  githubToken : String
  copilotToken : Option String
  copilotTokenExpiresAt : Option JVal
deriving DecidableEq

/-- The credential-store state: `none` models a missing (or unreadable)
`token.json` file. -/
abbrev Store := Option TokenStorage

/-- `getToken` of `storage.ts`: returns `data.githubToken || null`. -/
def getToken (st : Store) : Option String :=
  match st with
  | none => none
  | some d => if d.githubToken ≠ "" then some d.githubToken else none

/-- The value returned by the storage-side `getCopilotToken`: the cached
service token together with its expiry instant in milliseconds. -/
structure StoredCopilot where
  token : String
  expiresAt : Int
deriving DecidableEq

/-- Storage-side `getCopilotToken`: present only when both `copilotToken` and
`copilotTokenExpiresAt` are truthy; a string expiry is parsed as a date
(`parseDate` abstracts `new Date(string).getTime()`), a numeric expiry is
multiplied by 1000 (seconds to milliseconds). -/
def getStoredCopilotToken (parseDate : String → Int) (st : Store) : Option StoredCopilot :=
  match st with
  | none => none
  | some d =>
    match d.copilotToken, d.copilotTokenExpiresAt with
    | some t, some e =>
      if t ≠ "" ∧ jvTruthy e then
        some ⟨t, match e with | .str s => parseDate s | .num n => n * 1000⟩
      else none
    | _, _ => none

/-- `clearCopilotToken` of `storage.ts`: deletes the two service-token fields,
leaving the rest of the blob (and a missing file) untouched. -/
def clearCopilotToken (st : Store) : Store :=
  match st with
  | none => none
  | some d => some { d with copilotToken := none, copilotTokenExpiresAt := none }

/-- `saveTokens` of `storage.ts`: read-merge-write of the token blob.  The
existing blob (when present) is taken as the base, `githubToken` is always
overwritten, and the service-token pair is overwritten only when the
`copilotToken` argument is truthy. -/
def saveTokens (st : Store) (githubToken : String) (copilotToken : Option String)
    (expiresAt : Option JVal) : Store :=
  let tokenData : TokenStorage :=
    match st with
    | some existing => existing
    | none => { githubToken := githubToken, copilotToken := none, copilotTokenExpiresAt := none }
  let tokenData := { tokenData with githubToken := githubToken }
  let tokenData :=
    if optStrTruthy copilotToken then
      { tokenData with copilotToken := copilotToken, copilotTokenExpiresAt := expiresAt }
    else tokenData
  some tokenData

/-- `saveCopilotToken` of `storage.ts`: reads the existing GitHub token and,
only when one is present, writes the refreshed service token next to it. -/
def saveCopilotToken (st : Store) (token : String) (expiresAt : JVal) : Store :=
  match getToken st with
  | some githubToken => saveTokens st githubToken (some token) (some expiresAt)
  | none => st

/-- Which token a `TokenExpiredError` refers to. -/
inductive TokenType where
  | github
  | copilot
deriving DecidableEq

/-- Errors thrown by `copilot.ts`: the `TokenExpiredError` class and plain
`Error` values identified by their message. -/
inductive CopilotError where
  | tokenExpired (message : String) (tokenType : TokenType)
  | generic (message : String)
deriving DecidableEq

/-- `fetch` response success test (`response.ok`): status in the 2xx range. -/
def statusOk (status : Nat) : Bool := 200 ≤ status && status ≤ 299

/-- The service-token endpoint response: an HTTP status, and (when 2xx) the
body fields `token` and `expires_at`. -/
structure TokenEndpointResp where
  status : Nat
  token : String
  expires_at : JVal
deriving DecidableEq

/-- Result of one run of `getCopilotToken` in `copilot.ts`: the returned token
or thrown error, the credential-store state afterwards, and the number of
HTTP calls issued to the token-issuance endpoint. -/
structure TokenFlowOut where
  result : Except CopilotError String
  store : Store
  networkCalls : Nat

/-- The refresh path of `getCopilotToken` (`copilot.ts` lines 41-76): one HTTP
call; on non-2xx classify the status (401/403 clear the cached service token
and throw `TokenExpiredError('github')`, 429 throws rate-limited, ≥500 throws
service-unavailable, anything else a generic authentication error); on 2xx
persist the token via `saveCopilotToken` and return it. -/
def refreshCopilotToken (st : Store) (resp : TokenEndpointResp) : TokenFlowOut :=
  if ¬ statusOk resp.status then
    if resp.status == 401 || resp.status == 403 then
      ⟨.error (.tokenExpired "GitHub access token expired or invalid" .github),
        clearCopilotToken st, 1⟩
    else if resp.status == 429 then
      ⟨.error (.generic "Rate limit exceeded. Please try again later."), st, 1⟩
    else if 500 ≤ resp.status then
      ⟨.error (.generic "GitHub service is currently unavailable. Please try again later."), st, 1⟩
    else
      ⟨.error (.generic "Unable to authenticate with GitHub Copilot."), st, 1⟩
  else
    ⟨.ok resp.token, saveCopilotToken st resp.token resp.expires_at, 1⟩

/-- `getCopilotToken` of `copilot.ts`: return the stored service token when it
exists and its expiry is strictly in the future (`expiresAt > new Date()`),
otherwise refresh over the network. -/
def getCopilotTokenFlow (parseDate : String → Int) (now : Int) (st : Store)
    (resp : TokenEndpointResp) : TokenFlowOut :=
  match getStoredCopilotToken parseDate st with
  | some stored =>
    if now < stored.expiresAt then ⟨.ok stored.token, st, 0⟩
    else refreshCopilotToken st resp
  | none => refreshCopilotToken st resp

/-- The cache-hit condition of `getCopilotToken`: a stored service token whose
expiry is strictly later than the current time. -/
def cacheHit (parseDate : String → Int) (now : Int) (st : Store) : Prop :=
  ∃ c, getStoredCopilotToken parseDate st = some c ∧ now < c.expiresAt

/-- A chat message role (`copilot.ts` `Message`). -/
inductive Role where
  | system
  | user
deriving DecidableEq

/-- A role-tagged chat message. -/
structure Message where
  role : Role
  content : String
deriving DecidableEq

/-- The fixed text appended to the session context in the system message of
`getCommandSuggestion`. -/
def systemSuffix : String :=
  "\n\nYou are a command-line assistant. Generate accurate terminal commands based on user requests. Consider the context of previous commands when applicable."

/-- The message list built by `getCommandSuggestion` (`copilot.ts` lines
100-115): a system message only when `sessionContext` is truthy, then the one
user message embedding the literal prompt. -/
def buildMessages (sessionContext : Option String) (prompt : String) : List Message :=
  let base : List Message :=
    match sessionContext with
    | some ctx => if ctx ≠ "" then [⟨.system, ctx ++ systemSuffix⟩] else []
    | none => []
  base ++ [⟨.user, "Generate a terminal command for: " ++ prompt ++ "\nProvide only the command, no explanation."⟩]

/-- One element of `choices` in a completion response; `content` is the
message content of the choice. -/
structure Choice where
  content : String
deriving DecidableEq

/-- The completion endpoint response: an HTTP status and (when 2xx) the list
of choices. -/
structure CompletionResp where
  status : Nat
  choices : List Choice
deriving DecidableEq

/-- Result of one run of `getCommandSuggestion`: the suggestion or thrown
error, and the credential-store state afterwards. -/
structure SuggestOut where
  result : Except CopilotError String
  store : Store

/-- The body (try block) of `getCommandSuggestion` (`copilot.ts` lines
96-168): obtain a service token, send the composed messages, classify a
non-2xx completion status (401/403 clear the cached service token and throw
`TokenExpiredError('copilot')`, then 429, ≥500, 400, else), and on 2xx
extract and trim the first choice, treating an empty result as an error. -/
def getCommandSuggestionBody (parseDate : String → Int) (now : Int) (st : Store)
    (tokenResp : TokenEndpointResp) (complResp : CompletionResp)
    (_prompt : String) (_sessionContext : Option String) : SuggestOut :=
  let tokenOut := getCopilotTokenFlow parseDate now st tokenResp
  match tokenOut.result with
  | .error e => ⟨.error e, tokenOut.store⟩
  | .ok _copilotToken =>
    if ¬ statusOk complResp.status then
      if complResp.status == 401 || complResp.status == 403 then
        ⟨.error (.tokenExpired "Copilot token expired or invalid" .copilot),
          clearCopilotToken tokenOut.store⟩
      else if complResp.status == 429 then
        ⟨.error (.generic "You have reached your Copilot usage limit. Please try again later."),
          tokenOut.store⟩
      else if 500 ≤ complResp.status then
        ⟨.error (.generic "GitHub Copilot service is currently unavailable. Please try again later."),
          tokenOut.store⟩
      else if complResp.status == 400 then
        ⟨.error (.generic "Invalid request to Copilot. Please try a different prompt."),
          tokenOut.store⟩
      else
        ⟨.error (.generic "Unable to get a response from GitHub Copilot."), tokenOut.store⟩
    else
      match complResp.choices with
      | [] => ⟨.error (.generic "No command suggestion received"), tokenOut.store⟩
      | c :: _ =>
        let suggestion := c.content.trim
        if suggestion = "" then ⟨.error (.generic "No command suggestion received"), tokenOut.store⟩
        else ⟨.ok suggestion, tokenOut.store⟩

/-- Decides whether `sub` occurs at the start of `l`. -/
def charsStartWith : List Char → List Char → Bool
  | _, [] => true
  | [], _ :: _ => false
  | a :: as, b :: bs => a == b && charsStartWith as bs

/-- Decides whether `sub` occurs contiguously anywhere inside `l` (the model
of JavaScript `String.prototype.includes`). -/
def charsContains : List Char → List Char → Bool
  | [], sub => sub.isEmpty
  | a :: t, sub => charsStartWith (a :: t) sub || charsContains t sub

/-- JavaScript `message.includes(sub)` on Lean strings. -/
def strIncludes (s sub : String) : Bool := charsContains s.data sub.data

/-- The catch block of `getCommandSuggestion` (`copilot.ts` lines 169-193):
`TokenExpiredError` values are re-thrown unchanged; other errors are mapped by
substring checks on their message to one of the fixed user-facing messages. -/
def translateError : CopilotError → CopilotError
  | .tokenExpired m t => .tokenExpired m t
  | .generic m =>
    if strIncludes m "fetch" then
      .generic "Network error: Unable to connect to GitHub Copilot. Please check your internet connection."
    else if strIncludes m "Copilot API error" then
      .generic "GitHub Copilot service error. Please try again in a few moments."
    else if strIncludes m "No command suggestion" then
      .generic "Copilot was unable to generate a command for your request. Please try rephrasing."
    else
      .generic "Unable to get command suggestion from GitHub Copilot. Please try again."

/-- `getCommandSuggestion` end to end: the try block followed by the
error-translation catch block. -/
def getCommandSuggestion (parseDate : String → Int) (now : Int) (st : Store)
    (tokenResp : TokenEndpointResp) (complResp : CompletionResp)
    (prompt : String) (sessionContext : Option String) : SuggestOut :=
  let body := getCommandSuggestionBody parseDate now st tokenResp complResp prompt sessionContext
  match body.result with
  | .error e => ⟨.error (translateError e), body.store⟩
  | .ok s => ⟨.ok s, body.store⟩

/-- True when the store holds no cached service token (the service-token slot
and its expiry are both absent). -/
def serviceSlotEmpty (st : Store) : Bool :=
  match st with
  | none => true
  | some d => d.copilotToken.isNone && d.copilotTokenExpiresAt.isNone

/-- One entry of a session (`SessionEntry` in `session.ts`); timestamps are
milliseconds. -/
structure SessionEntry where
  timestamp : Int
  prompt : String
  command : Option String
  executed : Bool
  output : Option String
deriving DecidableEq

/-- The in-memory session (`SessionData` in `session.ts`). -/
structure SessionData where
  id : String
  createdAt : Int
  lastUpdatedAt : Int
  entries : List SessionEntry
deriving DecidableEq

/-- `saveSession` of `session.ts`: stamps `lastUpdatedAt` with the current
`Date.now()` reading (`tSave`) and writes the file. -/
def saveSession (tSave : Int) (s : SessionData) : SessionData :=
  { s with lastUpdatedAt := tSave }

/-- `addSessionEntry`: appends a new entry stamped with the `Date.now()`
reading `tEntry`, sets `lastUpdatedAt` to it, then runs `saveSession` (which
takes its own reading `tSave`). -/
def addSessionEntry (tEntry tSave : Int) (s : SessionData) (prompt : String)
    (command : Option String) (executed : Bool) : SessionData :=
  let entry : SessionEntry :=
    { timestamp := tEntry, prompt := prompt, command := command, executed := executed,
      output := none }
  saveSession tSave { s with entries := s.entries ++ [entry], lastUpdatedAt := entry.timestamp }

/-- The in-place mutation of the last entry performed by
`updateLastSessionEntry`: `command` and `output` are written only when given,
`executed` always; the entry's `timestamp` is never touched. -/
def updateEntry (e : SessionEntry) (command : Option String) (executed : Bool)
    (output : Option String) : SessionEntry :=
  let e := match command with
    | some c => { e with command := some c }
    | none => e
  let e := { e with executed := executed }
  match output with
  | some o => { e with output := some o }
  | none => e

/-- `updateLastSessionEntry`: when the session has entries, rewrites the last
one via `updateEntry`, stamps `lastUpdatedAt` with the reading `tUpd`, then
runs `saveSession` (reading `tSave`); with no entries it is a no-op. -/
def updateLastSessionEntry (tUpd tSave : Int) (s : SessionData) (command : Option String)
    (executed : Bool) (output : Option String) : SessionData :=
  match s.entries.getLast? with
  | none => s
  | some lastEntry =>
    saveSession tSave
      { s with entries := s.entries.dropLast ++ [updateEntry lastEntry command executed output],
               lastUpdatedAt := tUpd }

/-- JavaScript `arr.slice(start)` for an integer `start`: a negative start
counts from the end (clamped at 0), a non-negative one is clamped at the
length. -/
def jsSliceFrom {α : Type} (l : List α) (start : Int) : List α :=
  let len : Int := l.length
  let first : Int := if start < 0 then max (len + start) 0 else min start len
  l.drop first.toNat

/-- The output-size bound of `getSessionContext` (`maxOutputLength`). -/
def maxOutputLength : Nat := 500

/-- Model of JavaScript `substring(0, n)`: the first `n` characters. -/
def strTake (s : String) (n : Nat) : String := ⟨s.data.take n⟩

/-- The remainder after `strTake`. -/
def strDropChars (s : String) (n : Nat) : String := ⟨s.data.drop n⟩

/-- The output-limiting step of `getSessionContext`: outputs longer than 500
characters are cut to the first 500 and the truncation marker is appended. -/
def limitOutput (s : String) : String :=
  if s.length > maxOutputLength then strTake s maxOutputLength ++ "... [output truncated]"
  else s

/-- Rendering of one session entry by `getSessionContext` (`session.ts` lines
148-168): the numbered prompt line, then — only when `command` is truthy —
the command and executed lines, then — only when `output` is also truthy —
the size-limited, re-indented output line, then a blank line. -/
def renderEntry (index : Nat) (entry : SessionEntry) : String :=
  let ctx := "[" ++ toString (index + 1) ++ "] User: " ++ entry.prompt ++ "\n"
  let ctx :=
    match entry.command with
    | some cmd =>
      if cmd ≠ "" then
        let ctx := ctx ++ "    Command: " ++ cmd ++ "\n"
        let ctx := ctx ++ "    Executed: " ++ (if entry.executed then "Yes" else "No") ++ "\n"
        match entry.output with
        | some out =>
          if out ≠ "" then
            ctx ++ "    Output: " ++ (limitOutput out).replace "\n" "\n      " ++ "\n"
          else ctx
        | none => ctx
      else ctx
    | none => ctx
  ctx ++ "\n"

/-- `getSessionContext` of `session.ts`: the fixed header followed by one
rendered block per element of `entries.slice(-limit)`, numbered from 1. -/
def getSessionContext (session : SessionData) (limit : Int) : String :=
  let recentEntries := jsSliceFrom session.entries (-limit)
  "Previous commands:\n\n" ++ String.join (recentEntries.enum.map fun p => renderEntry p.1 p.2)

/-- One response observed by an attempt of `pollForToken` (`auth.ts`): `ok` is
the HTTP 2xx test (false also stands for a transport error, which takes the
same catch-and-retry path), and `access_token` is the body field, `""` when
the provider reports authorization pending.  -/
structure PollResp where
  ok : Bool
  access_token : String
deriving DecidableEq

/-- Statistics of a terminating run of `pollForToken`: the returned token, the
number of token-exchange attempts issued, and the number of `interval` waits
performed before returning. -/
structure PollOut where
  token : String
  attempts : Nat
  waits : Nat
deriving DecidableEq

/-- The polling loop of `pollForToken` run against a finite prefix of
responses: returns `some` when the loop exits within the prefix (which it does
only on a truthy `access_token` of a 2xx response) and `none` when every
response in the prefix causes another wait-then-retry. -/
def pollForTokenRun : List PollResp → Option PollOut
  | [] => none
  | r :: rest =>
    if r.ok && r.access_token ≠ "" then some ⟨r.access_token, 1, 0⟩
    else
      match pollForTokenRun rest with
      | none => none
      | some out => some ⟨out.token, out.attempts + 1, out.waits + 1⟩

/-- The wait performed between attempts of `pollForToken`, in milliseconds
(`interval * 1000`). -/
def pollIntervalMs (interval : Int) : Int := interval * 1000

lemma refreshCopilotToken_networkCalls (st : Store) (resp : TokenEndpointResp) :
    (refreshCopilotToken st resp).networkCalls = 1 := by
  unfold refreshCopilotToken
  split
  · split
    · rfl
    · split
      · rfl
      · split
        · rfl
        · rfl
  · rfl

lemma flow_of_not_cacheHit (pd : String → Int) (now : Int) (st : Store)
    (resp : TokenEndpointResp) (h : ¬ cacheHit pd now st) :
    getCopilotTokenFlow pd now st resp = refreshCopilotToken st resp := by
  unfold getCopilotTokenFlow
  split
  next stored hst =>
    rw [if_neg]
    intro hlt
    exact h ⟨stored, hst, hlt⟩
  next hst => rfl

lemma getStoredCopilotToken_clear (pd : String → Int) (st : Store) :
    getStoredCopilotToken pd (clearCopilotToken st) = none := by
  cases st <;> rfl

lemma not_cacheHit_clear (pd : String → Int) (now : Int) (st : Store) :
    ¬ cacheHit pd now (clearCopilotToken st) := by
  rintro ⟨c, hc, -⟩
  rw [getStoredCopilotToken_clear] at hc
  exact Option.noConfusion hc

/-- C1: `getCopilotToken` returns the cached service token with zero network
calls when the stored expiry is strictly later than the current time, and
issues exactly one HTTP call to the token-issuance endpoint otherwise. -/
theorem claim1_service_token_cache (pd : String → Int) (now : Int) (st : Store)
    (resp : TokenEndpointResp) :
    (∀ c, getStoredCopilotToken pd st = some c → now < c.expiresAt →
      getCopilotTokenFlow pd now st resp = ⟨.ok c.token, st, 0⟩) ∧
    (¬ cacheHit pd now st → (getCopilotTokenFlow pd now st resp).networkCalls = 1) := by
  constructor
  · intro c hc hlt
    unfold getCopilotTokenFlow
    rw [hc]
    simp [hlt]
  · intro h
    rw [flow_of_not_cacheHit pd now st resp h]
    exact refreshCopilotToken_networkCalls st resp

/-- Witness for C1: a concrete cache hit (numeric expiry 1 second, i.e.
1000 ms, against current time 5 ms) returns the cached token with zero
calls; a concrete miss (empty store) issues exactly one call. -/
theorem claim1_service_token_cache_witness :
    getCopilotTokenFlow (fun _ => 0) 5 (some ⟨"gh", some "ct", some (.num 1)⟩)
        ⟨401, "x", .num 0⟩ = ⟨.ok "ct", some ⟨"gh", some "ct", some (.num 1)⟩, 0⟩ ∧
    (getCopilotTokenFlow (fun _ => 0) 5 none ⟨500, "x", .num 0⟩).networkCalls = 1 := by
  constructor
  · exact (claim1_service_token_cache (fun _ => 0) 5 _ _).1 ⟨"ct", 1000⟩ (by decide) (by decide)
  · refine (claim1_service_token_cache (fun _ => 0) 5 none _).2 ?_
    rintro ⟨c, hc, -⟩
    exact Option.noConfusion hc

/-- C2: a non-2xx response from the service-token endpoint reached inside
`getCopilotToken` (i.e. on a cache miss) is classified by status — 401/403
clear the cached service token and raise `TokenExpiredError` with token type
`github`; 429 raises the rate-limited failure; ≥500 raises the
service-unavailable failure; any other status raises the generic
authentication failure — with exactly one network call (no internal retry),
and after a 401/403 the cleared store holds no readable service token, so a
subsequent `getCopilotToken` call always takes the refresh path and cannot
return the invalidated cached token. -/
theorem claim2_token_endpoint_failures (pd : String → Int) (now : Int) (st : Store)
    (resp : TokenEndpointResp) (hMiss : ¬ cacheHit pd now st)
    (hBad : statusOk resp.status = false) :
    ((resp.status = 401 ∨ resp.status = 403) →
      getCopilotTokenFlow pd now st resp =
        ⟨.error (.tokenExpired "GitHub access token expired or invalid" .github),
          clearCopilotToken st, 1⟩ ∧
      (∀ pd2, getStoredCopilotToken pd2 (clearCopilotToken st) = none) ∧
      (∀ now2 resp2, getCopilotTokenFlow pd now2 (clearCopilotToken st) resp2 =
        refreshCopilotToken (clearCopilotToken st) resp2)) ∧
    (resp.status = 429 →
      getCopilotTokenFlow pd now st resp =
        ⟨.error (.generic "Rate limit exceeded. Please try again later."), st, 1⟩) ∧
    (500 ≤ resp.status →
      getCopilotTokenFlow pd now st resp =
        ⟨.error (.generic "GitHub service is currently unavailable. Please try again later."),
          st, 1⟩) ∧
    (resp.status ≠ 401 → resp.status ≠ 403 → resp.status ≠ 429 → resp.status < 500 →
      getCopilotTokenFlow pd now st resp =
        ⟨.error (.generic "Unable to authenticate with GitHub Copilot."), st, 1⟩) ∧
    (getCopilotTokenFlow pd now st resp).networkCalls = 1 := by
  rw [flow_of_not_cacheHit pd now st resp hMiss]
  refine ⟨?_, ?_, ?_, ?_, refreshCopilotToken_networkCalls st resp⟩
  · intro h
    refine ⟨?_, fun pd2 => getStoredCopilotToken_clear pd2 st, fun now2 resp2 =>
      flow_of_not_cacheHit pd now2 (clearCopilotToken st) resp2 (not_cacheHit_clear pd now2 st)⟩
    unfold refreshCopilotToken
    rw [if_pos (by simp [hBad]), if_pos]
    rcases h with h | h <;> simp [h]
  · intro h
    unfold refreshCopilotToken
    rw [if_pos (by simp [hBad]), if_neg (by simp [h]), if_pos (by simp [h])]
  · intro h
    have h401 : resp.status ≠ 401 := by omega
    have h403 : resp.status ≠ 403 := by omega
    have h429 : resp.status ≠ 429 := by omega
    unfold refreshCopilotToken
    rw [if_pos (by simp [hBad]), if_neg (by simp [h401, h403]), if_neg (by simp [h429]),
      if_pos (by exact_mod_cast h)]
  · intro h401 h403 h429 h500
    unfold refreshCopilotToken
    rw [if_pos (by simp [hBad]), if_neg (by simp [h401, h403]), if_neg (by simp [h429]),
      if_neg (by omega)]

/-- Witness for C2: with an empty store (cache miss) a 401 yields the
github-token-expired error with a cleared store and one call, and a 503
yields the service-unavailable error with one call. -/
theorem claim2_token_endpoint_failures_witness :
    getCopilotTokenFlow (fun _ => 0) 0 none ⟨401, "x", .num 0⟩ =
      ⟨.error (.tokenExpired "GitHub access token expired or invalid" .github), none, 1⟩ ∧
    getCopilotTokenFlow (fun _ => 0) 0 none ⟨503, "x", .num 0⟩ =
      ⟨.error (.generic "GitHub service is currently unavailable. Please try again later."),
        none, 1⟩ := by
  have hMiss : ¬ cacheHit (fun _ => 0) 0 none := by
    rintro ⟨c, hc, -⟩
    exact Option.noConfusion hc
  constructor
  · exact ((claim2_token_endpoint_failures (fun _ => 0) 0 none ⟨401, "x", .num 0⟩ hMiss
      (by decide)).1 (Or.inl rfl)).1
  · exact (claim2_token_endpoint_failures (fun _ => 0) 0 none ⟨503, "x", .num 0⟩ hMiss
      (by decide)).2.2.1 (by decide)

lemma serviceSlotEmpty_clear (st : Store) : serviceSlotEmpty (clearCopilotToken st) = true := by
  cases st <;> rfl

/-- C3: a non-2xx completion response inside `getCommandSuggestion` with
status 401 or 403 clears the cached service token and raises
`TokenExpiredError` with token type `copilot`, which the final
error-translation step re-raises unchanged, leaving the service-token slot of
the resulting store empty; and a 400 status is classified as the
invalid-request failure, distinct from the generic failure messages. -/
theorem claim3_completion_endpoint_failures (pd : String → Int) (now : Int) (st : Store)
    (tokenResp : TokenEndpointResp) (complResp : CompletionResp) (prompt : String)
    (ctx : Option String) (tok : String)
    (hTok : (getCopilotTokenFlow pd now st tokenResp).result = .ok tok)
    (hBad : statusOk complResp.status = false) :
    ((complResp.status = 401 ∨ complResp.status = 403) →
      getCommandSuggestionBody pd now st tokenResp complResp prompt ctx =
        ⟨.error (.tokenExpired "Copilot token expired or invalid" .copilot),
          clearCopilotToken (getCopilotTokenFlow pd now st tokenResp).store⟩ ∧
      getCommandSuggestion pd now st tokenResp complResp prompt ctx =
        ⟨.error (.tokenExpired "Copilot token expired or invalid" .copilot),
          clearCopilotToken (getCopilotTokenFlow pd now st tokenResp).store⟩ ∧
      serviceSlotEmpty (getCommandSuggestion pd now st tokenResp complResp prompt ctx).store
        = true) ∧
    (complResp.status = 400 →
      (getCommandSuggestionBody pd now st tokenResp complResp prompt ctx).result =
        .error (.generic "Invalid request to Copilot. Please try a different prompt.") ∧
      CopilotError.generic "Invalid request to Copilot. Please try a different prompt." ≠
        CopilotError.generic "Unable to get a response from GitHub Copilot." ∧
      CopilotError.generic "Invalid request to Copilot. Please try a different prompt." ≠
        CopilotError.generic "Unable to authenticate with GitHub Copilot.") := by
  constructor
  · intro h
    have hb : getCommandSuggestionBody pd now st tokenResp complResp prompt ctx =
        ⟨.error (.tokenExpired "Copilot token expired or invalid" .copilot),
          clearCopilotToken (getCopilotTokenFlow pd now st tokenResp).store⟩ := by
      simp only [getCommandSuggestionBody]
      rw [hTok]
      dsimp only
      rw [if_pos (by simp [hBad]), if_pos (by rcases h with h | h <;> simp [h])]
    refine ⟨hb, ?_, ?_⟩
    · simp [getCommandSuggestion, hb, translateError]
    · simp only [getCommandSuggestion, hb]
      exact serviceSlotEmpty_clear _
  · intro h
    refine ⟨?_, by decide, by decide⟩
    simp only [getCommandSuggestionBody]
    rw [hTok]
    dsimp only
    rw [if_pos (by simp [hBad]), if_neg (by simp [h]), if_neg (by simp [h]),
      if_neg (by simp [h]), if_pos (by simp [h])]

/-- Witness for C3: with a stored identity token, a 2xx token refresh and a
403 completion response, `getCommandSuggestion` raises the unchanged
copilot-token-expired error and the store's service slot is empty; a 400
completion response is classified as the invalid-request failure. -/
theorem claim3_completion_endpoint_failures_witness :
    getCommandSuggestion (fun _ => 0) 0 (some ⟨"gh", none, none⟩) ⟨200, "ct", .str "e"⟩
        ⟨403, []⟩ "p" none =
      ⟨.error (.tokenExpired "Copilot token expired or invalid" .copilot),
        clearCopilotToken
          (getCopilotTokenFlow (fun _ => 0) 0 (some ⟨"gh", none, none⟩)
            ⟨200, "ct", .str "e"⟩).store⟩ ∧
    serviceSlotEmpty (getCommandSuggestion (fun _ => 0) 0 (some ⟨"gh", none, none⟩)
        ⟨200, "ct", .str "e"⟩ ⟨403, []⟩ "p" none).store = true ∧
    (getCommandSuggestionBody (fun _ => 0) 0 (some ⟨"gh", none, none⟩) ⟨200, "ct", .str "e"⟩
        ⟨400, []⟩ "p" none).result =
      .error (.generic "Invalid request to Copilot. Please try a different prompt.") := by
  have hTok : (getCopilotTokenFlow (fun _ => 0) 0 (some ⟨"gh", none, none⟩)
      ⟨200, "ct", .str "e"⟩).result = .ok "ct" := rfl
  refine ⟨?_, ?_, ?_⟩
  · exact ((claim3_completion_endpoint_failures (fun _ => 0) 0 _ _ ⟨403, []⟩ "p" none "ct"
      hTok (by decide)).1 (Or.inr rfl)).2.1
  · exact ((claim3_completion_endpoint_failures (fun _ => 0) 0 _ _ ⟨403, []⟩ "p" none "ct"
      hTok (by decide)).1 (Or.inr rfl)).2.2
  · exact ((claim3_completion_endpoint_failures (fun _ => 0) 0 _ _ ⟨400, []⟩ "p" none "ct"
      hTok (by decide)).2 rfl).1

/-- One mutating session-log call together with the two `Date.now()` readings
it performs (the second one inside `saveSession`). -/
inductive SessionOp where
  | append (tEntry tSave : Int) (prompt : String) (command : Option String) (executed : Bool)
  | updateLast (tUpd tSave : Int) (command : Option String) (executed : Bool)
      (output : Option String)

/-- The first `Date.now()` reading of a session operation. -/
def opT1 : SessionOp → Int
  | .append t _ _ _ _ => t
  | .updateLast t _ _ _ _ => t

/-- The second `Date.now()` reading of a session operation. -/
def opT2 : SessionOp → Int
  | .append _ t _ _ _ => t
  | .updateLast _ t _ _ _ => t

/-- Runs one session operation. -/
def applyOp (s : SessionData) : SessionOp → SessionData
  | .append tE tS p c e => addSessionEntry tE tS s p c e
  | .updateLast tU tS c e o => updateLastSessionEntry tU tS s c e o

/-- Runs a sequence of session operations in order. -/
def runOps (s : SessionData) : List SessionOp → SessionData
  | [] => s
  | op :: rest => runOps (applyOp s op) rest

/-- The clock model: all `Date.now()` readings of the run are non-decreasing,
starting no earlier than `t`. -/
def clockOk : Int → List SessionOp → Bool
  | _, [] => true
  | t, op :: rest =>
    decide (t ≤ opT1 op) && decide (opT1 op ≤ opT2 op) && clockOk (opT2 op) rest

/-- The session-log invariant: entry timestamps are non-decreasing, and the
last entry's timestamp never exceeds `lastUpdatedAt`. -/
def sessionInv (s : SessionData) : Prop :=
  List.Chain' (· ≤ ·) (s.entries.map SessionEntry.timestamp) ∧
    ∀ e, s.entries.getLast? = some e → e.timestamp ≤ s.lastUpdatedAt

lemma updateEntry_timestamp (e : SessionEntry) (c : Option String) (x : Bool)
    (o : Option String) : (updateEntry e c x o).timestamp = e.timestamp := by
  unfold updateEntry
  cases c <;> cases o <;> rfl

lemma applyOp_inv (s : SessionData) (op : SessionOp) (hInv : sessionInv s)
    (h1 : s.lastUpdatedAt ≤ opT1 op) (h12 : opT1 op ≤ opT2 op) :
    sessionInv (applyOp s op) ∧ (applyOp s op).lastUpdatedAt ≤ opT2 op := by
  obtain ⟨hChain, hLast⟩ := hInv
  cases op with
  | append tE tS p c e =>
    simp only [opT1, opT2] at h1 h12
    dsimp only [applyOp, addSessionEntry, saveSession, sessionInv]
    refine ⟨⟨?_, ?_⟩, le_refl _⟩
    · rw [List.map_append, List.chain'_append]
      refine ⟨hChain, List.chain'_singleton _, ?_⟩
      intro x hx y hy
      simp only [List.map_cons, List.map_nil, List.head?_cons, Option.mem_def,
        Option.some.injEq] at hy
      subst hy
      rw [List.getLast?_map, Option.mem_def, Option.map_eq_some'] at hx
      obtain ⟨e', he', hts⟩ := hx
      subst hts
      exact le_trans (hLast e' he') h1
    · intro e' he'
      rw [List.getLast?_concat] at he'
      cases he'
      exact h12
  | updateLast tU tS c e o =>
    simp only [opT1, opT2] at h1 h12
    dsimp only [applyOp, updateLastSessionEntry]
    cases hl : s.entries.getLast? with
    | none => exact ⟨⟨hChain, hLast⟩, le_trans h1 h12⟩
    | some lastEntry =>
      have hne : s.entries ≠ [] := by
        intro hnil
        rw [hnil] at hl
        exact Option.noConfusion hl
      have hlast_eq : lastEntry = s.entries.getLast hne := by
        have h2 := List.getLast?_eq_getLast s.entries hne
        rw [hl] at h2
        injection h2
      have hts : (updateEntry lastEntry c e o).timestamp = lastEntry.timestamp :=
        updateEntry_timestamp _ _ _ _
      dsimp only [saveSession, sessionInv]
      refine ⟨⟨?_, ?_⟩, le_refl _⟩
      · have hmap : (s.entries.dropLast ++ [updateEntry lastEntry c e o]).map
            SessionEntry.timestamp = s.entries.map SessionEntry.timestamp := by
          conv_rhs => rw [← List.dropLast_append_getLast hne]
          rw [List.map_append, List.map_append]
          simp [hts, ← hlast_eq]
        rw [hmap]
        exact hChain
      · intro e' he'
        rw [List.getLast?_concat] at he'
        cases he'
        rw [hts]
        exact le_trans (hLast lastEntry hl) (le_trans h1 h12)

lemma runOps_inv (ops : List SessionOp) (s : SessionData) (t : Int) (hInv : sessionInv s)
    (hle : s.lastUpdatedAt ≤ t) (hclock : clockOk t ops = true) :
    sessionInv (runOps s ops) := by
  induction ops generalizing s t with
  | nil => exact hInv
  | cons op rest ih =>
    simp only [clockOk, Bool.and_eq_true, decide_eq_true_eq] at hclock
    obtain ⟨⟨ht1, h12⟩, hrest⟩ := hclock
    obtain ⟨hInv', hle'⟩ := applyOp_inv s op hInv (le_trans hle ht1) h12
    exact ih (applyOp s op) (opT2 op) hInv' hle' hrest

/-- Counterexample to C4 as stated: an `append` at time 0 followed by an
`updateLast` at time 1 (a clock-consistent run) leaves `lastUpdatedAt = 1`
while the last (and only) entry keeps its creation timestamp 0, so
`lastUpdatedAt` does not equal the last entry's timestamp. -/
theorem claim4_session_invariant_counterexample :
    clockOk 0 [.append 0 0 "p" none false, .updateLast 1 1 (some "c") true none] = true ∧
    (runOps ⟨"s", 0, 0, []⟩
        [.append 0 0 "p" none false, .updateLast 1 1 (some "c") true none]).entries.map
      SessionEntry.timestamp = [0] ∧
    (runOps ⟨"s", 0, 0, []⟩
        [.append 0 0 "p" none false, .updateLast 1 1 (some "c") true none]).lastUpdatedAt = 1 ∧
    (runOps ⟨"s", 0, 0, []⟩
        [.append 0 0 "p" none false, .updateLast 1 1 (some "c") true none]).entries.getLast?.map
        SessionEntry.timestamp ≠
      some (runOps ⟨"s", 0, 0, []⟩
        [.append 0 0 "p" none false, .updateLast 1 1 (some "c") true none]).lastUpdatedAt := by
  refine ⟨by decide, rfl, rfl, by decide⟩

/-- C4 (amended): for every sequence of `append`/`updateLast` calls run under
a non-decreasing clock, the entry timestamps stay non-decreasing and
`lastUpdatedAt` stays an upper bound of (rather than equal to) the last
entry's timestamp; equality with the last entry's timestamp holds right after
an `append` whose two clock readings coincide. -/
theorem claim4_session_invariant_amended :
    (∀ (s : SessionData) (t0 : Int) (ops : List SessionOp),
      sessionInv s → s.lastUpdatedAt ≤ t0 → clockOk t0 ops = true →
      sessionInv (runOps s ops)) ∧
    (∀ (t : Int) (s : SessionData) (p : String) (c : Option String) (e : Bool),
      (addSessionEntry t t s p c e).entries.getLast?.map SessionEntry.timestamp =
        some (addSessionEntry t t s p c e).lastUpdatedAt) := by
  constructor
  · intro s t0 ops hInv hle hclock
    exact runOps_inv ops s t0 hInv hle hclock
  · intro t s p c e
    dsimp only [addSessionEntry, saveSession]
    rw [List.getLast?_concat]
    rfl

/-- Witness for C4 (amended): a concrete clock-consistent two-call run keeps
the invariant, and a concrete equal-reading append makes `lastUpdatedAt`
equal to the new entry's timestamp. -/
theorem claim4_session_invariant_amended_witness :
    sessionInv (runOps ⟨"s", 0, 0, []⟩
      [.append 1 2 "p" none false, .updateLast 3 4 (some "c") true (some "o")]) ∧
    (addSessionEntry 7 7 ⟨"s", 0, 0, []⟩ "q" none false).entries.getLast?.map
        SessionEntry.timestamp =
      some (addSessionEntry 7 7 ⟨"s", 0, 0, []⟩ "q" none false).lastUpdatedAt := by
  constructor
  · exact claim4_session_invariant_amended.1 ⟨"s", 0, 0, []⟩ 0
      [.append 1 2 "p" none false, .updateLast 3 4 (some "c") true (some "o")]
      (by constructor
          · exact List.chain'_nil
          · intro e he
            exact Option.noConfusion he)
      (by decide) (by decide)
  · exact claim4_session_invariant_amended.2 7 ⟨"s", 0, 0, []⟩ "q" none false

/-- Counterexample to C5 as stated: at `limit = 0` the claim demands
`min(0, 1) = 0` rendered blocks, but `entries.slice(-0)` is `entries.slice(0)`
— the whole list — so a one-entry session renders one block and the context
is more than the bare header. -/
theorem claim5_context_counterexample :
    (jsSliceFrom (⟨"s", 0, 0, [⟨0, "p", some "c", true, none⟩]⟩ : SessionData).entries
      (-(0 : Int))).length = 1 ∧
    ¬ ((jsSliceFrom (⟨"s", 0, 0, [⟨0, "p", some "c", true, none⟩]⟩ : SessionData).entries
      (-(0 : Int))).length =
        min ((0 : Int)).toNat
          (⟨"s", 0, 0, [⟨0, "p", some "c", true, none⟩]⟩ : SessionData).entries.length) ∧
    getSessionContext ⟨"s", 0, 0, [⟨0, "p", some "c", true, none⟩]⟩ 0 ≠
      "Previous commands:\n\n" := by
  refine ⟨rfl, by decide, ?_⟩
  have h : getSessionContext ⟨"s", 0, 0, [⟨0, "p", some "c", true, none⟩]⟩ 0 =
      "Previous commands:\n\n[1] User: p\n    Command: c\n    Executed: Yes\n\n" := rfl
  rw [h]
  decide

/-- C5 (amended): for every positive limit, `getSessionContext` renders
exactly `min(limit, number of entries)` numbered blocks — the final slice of
the entry list in chronological order — and the output text incorporated for
an entry is a prefix of at most 500 characters of its output, with the
truncation marker appended exactly when the output is longer than 500
characters. -/
theorem claim5_context_rendering (session : SessionData) (limit : Int) (h : 1 ≤ limit) :
    (jsSliceFrom session.entries (-limit)).length =
      min limit.toNat session.entries.length ∧
    jsSliceFrom session.entries (-limit) =
      session.entries.drop (session.entries.length - limit.toNat) ∧
    getSessionContext session limit =
      "Previous commands:\n\n" ++ String.join
        (((session.entries.drop (session.entries.length - limit.toNat)).enum).map
          fun p => renderEntry p.1 p.2) ∧
    ∀ s : String, ∃ pre rest, s = pre ++ rest ∧ pre.length ≤ maxOutputLength ∧
      limitOutput s =
        pre ++ (if maxOutputLength < s.length then "... [output truncated]" else rest) := by
  have hdrop : jsSliceFrom session.entries (-limit) =
      session.entries.drop (session.entries.length - limit.toNat) := by
    simp only [jsSliceFrom]
    congr 1
    omega
  refine ⟨?_, hdrop, ?_, ?_⟩
  · rw [hdrop, List.length_drop]
    omega
  · simp only [getSessionContext, hdrop]
  · intro s
    by_cases h5 : s.length ≤ maxOutputLength
    · refine ⟨s, "", ?_, h5, ?_⟩
      · exact (String.append_empty s).symm
      · rw [if_neg (by omega)]
        unfold limitOutput
        rw [if_neg (by omega)]
        exact (String.append_empty s).symm
    · push_neg at h5
      refine ⟨ strTake s maxOutputLength, strDropChars s maxOutputLength, ?_, ?_, ?_⟩
      · apply String.ext
        show s.data = (strTake s maxOutputLength ++ strDropChars s maxOutputLength).data
        have : (strTake s maxOutputLength ++ strDropChars s maxOutputLength).data =
            s.data.take maxOutputLength ++ s.data.drop maxOutputLength := rfl
        rw [this, List.take_append_drop]
      · show (s.data.take maxOutputLength).length ≤ maxOutputLength
        rw [List.length_take]
        exact min_le_left _ _
      · rw [if_pos (by omega)]
        unfold limitOutput
        rw [if_pos (by omega)]

/-- Witness for C5 (amended): a concrete one-entry session at the default
limit 5 renders exactly `min(5, 1) = 1` block, the final slice of the entry
list, and a concrete 501-character output is cut to its first 500 characters
with the marker appended. -/
theorem claim5_context_rendering_witness :
    (jsSliceFrom (⟨"s", 0, 0, [⟨0, "p", none, false, none⟩]⟩ : SessionData).entries
      (-(5 : Int))).length =
      min ((5 : Int)).toNat
        (⟨"s", 0, 0, [⟨0, "p", none, false, none⟩]⟩ : SessionData).entries.length ∧
    jsSliceFrom (⟨"s", 0, 0, [⟨0, "p", none, false, none⟩]⟩ : SessionData).entries
      (-(5 : Int)) =
      (⟨"s", 0, 0, [⟨0, "p", none, false, none⟩]⟩ : SessionData).entries.drop
        ((⟨"s", 0, 0, [⟨0, "p", none, false, none⟩]⟩ : SessionData).entries.length -
          ((5 : Int)).toNat) := by
  constructor
  · exact (claim5_context_rendering ⟨"s", 0, 0, [⟨0, "p", none, false, none⟩]⟩ 5
      (by decide)).1
  · exact (claim5_context_rendering ⟨"s", 0, 0, [⟨0, "p", none, false, none⟩]⟩ 5
      (by decide)).2.1

/-- C6: `pollForToken` returns only an access token taken from a successful
token-exchange response: whenever a run terminates, the returned token is the
truthy `access_token` of the first successful response, every earlier
response failed (pending or transport/non-2xx) and caused one `interval` wait,
so the number of waits equals the number of failed attempts; the loop is
unbounded — any number of consecutive pending responses leaves it still
polling; and in the three-pendings-then-success scenario the token of the
fourth response is returned after exactly four attempts and three waits. -/
theorem claim6_poll_for_token (interval : Int) :
    (∀ (rs : List PollResp) (out : PollOut), pollForTokenRun rs = some out →
      ∃ pre r suf, rs = pre ++ r :: suf ∧ pre.length = out.waits ∧
        out.attempts = out.waits + 1 ∧ r.ok = true ∧ r.access_token = out.token ∧
        out.token ≠ "" ∧ ∀ p ∈ pre, ¬(p.ok = true ∧ p.access_token ≠ "")) ∧
    (∀ n, pollForTokenRun (List.replicate n ⟨true, ""⟩) = none) ∧
    pollIntervalMs interval = interval * 1000 ∧
    pollForTokenRun [⟨true, ""⟩, ⟨true, ""⟩, ⟨true, ""⟩, ⟨true, "tok4"⟩] =
      some ⟨"tok4", 4, 3⟩ := by
  refine ⟨?_, ?_, rfl, by decide⟩
  · intro rs
    induction rs with
    | nil => intro out h; exact absurd h (by simp [pollForTokenRun])
    | cons r rest ih =>
      intro out h
      rw [pollForTokenRun] at h
      split at h
      next hc =>
        rw [Option.some.injEq] at h
        subst h
        rw [Bool.and_eq_true, decide_eq_true_eq] at hc
        exact ⟨[], r, rest, rfl, rfl, rfl, hc.1, rfl, hc.2, by intro p hp; cases hp⟩
      next hc =>
        have hr : ¬(r.ok = true ∧ r.access_token ≠ "") := by
          intro hand
          exact hc (by rw [Bool.and_eq_true, decide_eq_true_eq]; exact hand)
        cases hrest : pollForTokenRun rest with
        | none => rw [hrest] at h; exact absurd h (by simp)
        | some out' =>
          rw [hrest] at h
          rw [Option.some.injEq] at h
          subst h
          obtain ⟨pre', r', suf', hsplit, hlen, hatt, hok, htok, hne, hall⟩ := ih out' hrest
          refine ⟨r :: pre', r', suf', ?_, ?_, ?_, hok, htok, hne, ?_⟩
          · rw [hsplit]; rfl
          · simp [hlen]
          · simp [hatt]
          · intro p hp
            rcases List.mem_cons.mp hp with hp | hp
            · subst hp; exact hr
            · exact hall p hp
  · intro n
    induction n with
    | zero => rfl
    | succ n ih => simp [List.replicate_succ, pollForTokenRun, ih]

/-- Witness for C6: applying the termination characterization to the
single-response run `[⟨true, "t"⟩]`, which returns token `"t"` after one
attempt and no wait. -/
theorem claim6_poll_for_token_witness :
    ∃ pre r suf, ([⟨true, "t"⟩] : List PollResp) = pre ++ r :: suf ∧
      pre.length = 0 ∧ (1 : Nat) = 0 + 1 ∧ r.ok = true ∧ r.access_token = "t" ∧
      ("t" : String) ≠ "" ∧ ∀ p ∈ pre, ¬(p.ok = true ∧ p.access_token ≠ "") :=
  (claim6_poll_for_token 1).1 [⟨true, "t"⟩] ⟨"t", 1, 0⟩ rfl

/-- Counterexample to C7 as stated: with an empty credential store, a 2xx
refresh returns the new token but `saveCopilotToken` finds no GitHub token
and silently persists nothing — afterwards the store still holds no service
token or expiry. -/
theorem claim7_persist_counterexample :
    (getCopilotTokenFlow (fun _ => 0) 0 none ⟨200, "tok", .str "2025-01-01"⟩).result =
      .ok "tok" ∧
    (getCopilotTokenFlow (fun _ => 0) 0 none ⟨200, "tok", .str "2025-01-01"⟩).store = none ∧
    getStoredCopilotToken (fun _ => 0)
      (getCopilotTokenFlow (fun _ => 0) 0 none ⟨200, "tok", .str "2025-01-01"⟩).store =
      none :=
  ⟨rfl, rfl, rfl⟩

/-- C7 (amended): whenever the refresh call inside `getCopilotToken` succeeds
(2xx), provided the credential store currently yields an identity token and
the issued service token is non-empty, the returned token and its expiry —
in whichever of the two accepted representations (ISO string or epoch-seconds
number) it arrived — are persisted into the store before the token is
returned, alongside the unchanged identity token. -/
theorem claim7_persist_on_success (pd : String → Int) (now : Int) (st : Store)
    (resp : TokenEndpointResp) (g : String) (hMiss : ¬ cacheHit pd now st)
    (hok : statusOk resp.status = true) (hg : getToken st = some g)
    (ht : resp.token ≠ "") :
    ∃ d, getCopilotTokenFlow pd now st resp = ⟨.ok resp.token, some d, 1⟩ ∧
      d.copilotToken = some resp.token ∧ d.copilotTokenExpiresAt = some resp.expires_at ∧
      d.githubToken = g := by
  rw [flow_of_not_cacheHit pd now st resp hMiss]
  unfold refreshCopilotToken
  rw [if_neg (by simp [hok])]
  cases st with
  | none => exact absurd hg (by simp [getToken])
  | some d0 =>
    refine ⟨⟨g, some resp.token, some resp.expires_at⟩, ?_, rfl, rfl, rfl⟩
    have hsave : saveCopilotToken (some d0) resp.token resp.expires_at =
        some ⟨g, some resp.token, some resp.expires_at⟩ := by
      unfold saveCopilotToken
      rw [hg]
      simp [saveTokens, optStrTruthy, ht]
    rw [hsave]

/-- Witness for C7 (amended): a concrete store holding only the identity
token `"gh"` and a 2xx refresh with a numeric (epoch-seconds) expiry persist
the new pair next to the identity token. -/
theorem claim7_persist_on_success_witness :
    ∃ d, getCopilotTokenFlow (fun _ => 0) 0 (some ⟨"gh", none, none⟩) ⟨200, "tok", .num 5⟩ =
      ⟨.ok "tok", some d, 1⟩ ∧
      d.copilotToken = some "tok" ∧ d.copilotTokenExpiresAt = some (.num 5) ∧
      d.githubToken = "gh" :=
  claim7_persist_on_success (fun _ => 0) 0 (some ⟨"gh", none, none⟩) ⟨200, "tok", .num 5⟩ "gh"
    (by rintro ⟨c, hc, -⟩; exact Option.noConfusion hc) (by decide) rfl (by decide)

/-- C8: credential-store writes preserve unrelated slots — `saveTokens` with
no service-token argument leaves an existing cached service token and its
expiry exactly as they were, and `saveCopilotToken` leaves the stored
identity token exactly as it was. -/
theorem claim8_store_frame (st : Store) (g t : String) (e : JVal) :
    (saveTokens st g none none).bind TokenStorage.copilotToken =
      st.bind TokenStorage.copilotToken ∧
    (saveTokens st g none none).bind TokenStorage.copilotTokenExpiresAt =
      st.bind TokenStorage.copilotTokenExpiresAt ∧
    (saveCopilotToken st t e).map TokenStorage.githubToken =
      st.map TokenStorage.githubToken := by
  refine ⟨?_, ?_, ?_⟩
  · cases st <;> rfl
  · cases st <;> rfl
  · cases st with
    | none => rfl
    | some d =>
      by_cases hgb : d.githubToken = ""
      · have h0 : getToken (some d) = none := by simp [getToken, hgb]
        simp [saveCopilotToken, h0]
      · have h0 : getToken (some d) = some d.githubToken := by simp [getToken, hgb]
        simp only [saveCopilotToken, h0]
        simp [saveTokens, optStrTruthy]
        split_ifs <;> simp

/-- Witness for C8: a concrete store holding all three slots keeps its cached
service pair across an identity-only `saveTokens`, and keeps its identity
token across a `saveCopilotToken`. -/
theorem claim8_store_frame_witness :
    (saveTokens (some ⟨"gh", some "old", some (.num 7)⟩) "gh2" none none).bind
      TokenStorage.copilotToken = some "old" ∧
    (saveCopilotToken (some ⟨"gh", some "old", some (.num 7)⟩) "new" (.str "e")).map
      TokenStorage.githubToken = some "gh" := by
  constructor
  · exact (claim8_store_frame (some ⟨"gh", some "old", some (.num 7)⟩) "gh2" "new"
      (.str "e")).1
  · exact (claim8_store_frame (some ⟨"gh", some "old", some (.num 7)⟩) "gh2" "new"
      (.str "e")).2.2

/-- C9: `getCommandSuggestion` composes at most two messages — a system
message carrying the session context exactly when a truthy (non-empty)
context is provided, followed by exactly one user message whose content embeds
the literal prompt, and the user message is always the last one. -/
theorem claim9_message_composition (ctx : Option String) (prompt : String) :
    (buildMessages ctx prompt).length ≤ 2 ∧
    (buildMessages ctx prompt).filter (fun m => m.role == Role.user) =
      [⟨.user, "Generate a terminal command for: " ++ prompt ++
        "\nProvide only the command, no explanation."⟩] ∧
    (buildMessages ctx prompt).getLast? =
      some ⟨.user, "Generate a terminal command for: " ++ prompt ++
        "\nProvide only the command, no explanation."⟩ ∧
    ((∃ m ∈ buildMessages ctx prompt, m.role = .system) ↔ optStrTruthy ctx = true) ∧
    (∀ m ∈ buildMessages ctx prompt, m.role = .system →
      ∃ s, ctx = some s ∧ s ≠ "" ∧ m.content = s ++ systemSuffix) := by
  cases ctx with
  | none =>
    refine ⟨by simp [buildMessages], by simp [buildMessages], by simp [buildMessages], ?_, ?_⟩
    · simp [buildMessages, optStrTruthy]
    · simp [buildMessages]
  | some s =>
    by_cases hs : s = ""
    · subst hs
      refine ⟨by simp [buildMessages], by simp [buildMessages], by simp [buildMessages],
        ?_, ?_⟩
      · simp [buildMessages, optStrTruthy]
      · simp [buildMessages]
    · refine ⟨by simp [buildMessages, hs], by simp [buildMessages, hs],
        by simp [buildMessages, hs], ?_, ?_⟩
      · simp [buildMessages, hs, optStrTruthy]
      · simp [buildMessages, hs]

/-- Witness for C9: with the concrete context `"ctx"` and prompt `"p"`, the
message list has at most two entries and exactly one user message embedding
the prompt. -/
theorem claim9_message_composition_witness :
    (buildMessages (some "ctx") "p").length ≤ 2 ∧
    (buildMessages (some "ctx") "p").filter (fun m => m.role == Role.user) =
      [⟨.user, "Generate a terminal command for: " ++ "p" ++
        "\nProvide only the command, no explanation."⟩] :=
  ⟨(claim9_message_composition (some "ctx") "p").1,
    (claim9_message_composition (some "ctx") "p").2.1⟩

/-- C10: `getSessionContext` always returns the fixed header followed by the
rendered blocks, so it is never the empty string — even for a session with
zero entries — and the truthiness test applied to it by a caller (the
`if (sessionContext)` guard of `getCommandSuggestion`) is always true, hence
that test cannot detect an empty session. -/
theorem claim10_context_never_empty (session : SessionData) (limit : Int) :
    (∃ rest, getSessionContext session limit = "Previous commands:\n\n" ++ rest) ∧
    getSessionContext session limit ≠ "" ∧
    optStrTruthy (some (getSessionContext session limit)) = true := by
  have hx : getSessionContext session limit = "Previous commands:\n\n" ++
      String.join ((jsSliceFrom session.entries (-limit)).enum.map
        fun p => renderEntry p.1 p.2) := rfl
  have hne : getSessionContext session limit ≠ "" := by
    intro h
    have hlen := congrArg String.length h
    rw [hx, String.length_append] at hlen
    have hhead : ("Previous commands:\n\n" : String).length = 20 := by decide
    rw [hhead] at hlen
    simp at hlen
  exact ⟨⟨_, hx⟩, hne, by simp [optStrTruthy, hne]⟩

/-- Witness for C10: for a concrete session with zero entries the context is
still the non-empty header string, so the truthiness test passes. -/
theorem claim10_context_never_empty_witness :
    getSessionContext ⟨"s", 0, 0, []⟩ 5 ≠ "" ∧
    optStrTruthy (some (getSessionContext ⟨"s", 0, 0, []⟩ 5)) = true :=
  ⟨(claim10_context_never_empty ⟨"s", 0, 0, []⟩ 5).2.1,
    (claim10_context_never_empty ⟨"s", 0, 0, []⟩ 5).2.2⟩
